import Mathlib

/-!
Verification development for the stock-ai-app dashboard core
(`streamlit_app.py`): the indicator engine, scoring engine, strategy level
calculator, narrative summarizer and batch scanner are embedded as Lean
functions over exact rational arithmetic, and the specification's claims
about them are settled as theorems.

Modelling conventions:
* pandas `DataFrame` columns become lists of rationals; derived indicator
  columns are `List (Option ℚ)` where `none` models a NaN entry, and the
  whole column is wrapped in `Option` (`none` = column not yet assigned,
  so reading it raises `KeyError`).
* A Python function that can raise returns `Option _`; `none` models an
  uncaught exception (e.g. `iloc[-2]` on a 1-row frame raises IndexError).
* Float division by zero artifacts (inf/NaN) are modelled as undefined
  (`none`) where a NaN-bearing column is produced; plain `ℚ` division by
  zero yields 0, which is only reachable off the data model (prices > 0).
-/

set_option linter.unusedVariables false
set_option maxRecDepth 4000

/-- Column-oriented model of the OHLCV DataFrame handed to the core
functions.  The five raw columns always exist; the indicator columns are
`none` until `calculate_technical_indicators` assigns them (in the source
they are created by `df['MA20'] = ...` style item assignment). -/
structure DF where
  Open : List ℚ
  High : List ℚ
  Low : List ℚ
  Close : List ℚ
  Volume : List ℚ
  MA20 : Option (List (Option ℚ)) := none
  MA60 : Option (List (Option ℚ)) := none
  RSI : Option (List (Option ℚ)) := none
  BB_Mid : Option (List (Option ℚ)) := none
deriving DecidableEq

/-- The yfinance `ticker.info` fields the core reads (`info.get(key, default)`
returns the default when the key is absent; a present-but-`None` value
behaves the same in every use below, so both are modelled as `none`). -/
structure Info where
  trailingPE : Option ℚ := none
  returnOnEquity : Option ℚ := none
  longName : Option String := none
deriving DecidableEq

/-- The tuple returned by `calculate_ace_score`:
`(final_score, action, reasons, bias)`.  `bias` is `none` when the MA20
value it divides by is NaN. -/
structure ScoreResult where
  score : ℤ
  action : String
  reasons : List String
  bias : Option ℚ
deriving DecidableEq

/-- One `{entry, stop, profit}` triple of `calculate_strategy`. -/
structure StrategyLevels where
  entry : ℚ
  stop : ℚ
  profit : ℚ
deriving DecidableEq

/-- The `{"mom": ..., "val": ...}` dictionary returned by
`calculate_strategy`. -/
structure Strategy where
  mom : StrategyLevels
  val : StrategyLevels
deriving DecidableEq

/-- `.mean()` of a pandas series: sum divided by length (callers below only
apply it to nonempty series). -/
def listMean (xs : List ℚ) : ℚ := xs.sum / (xs.length : ℚ)

/-- `series.rolling(window=w).mean()` with the pandas default
`min_periods = w`: position `t` is NaN while fewer than `w` observations
exist, else the mean of the trailing `w` values (current bar inclusive). -/
def rollingMean (w : ℕ) (xs : List ℚ) : List (Option ℚ) :=
  (List.range xs.length).map fun t =>
    if t + 1 < w then none
    else some (((xs.take (t + 1)).drop (t + 1 - w)).sum / (w : ℚ))

/-- `series.diff()`: NaN at position 0, else `xs[t] - xs[t-1]`. -/
def seriesDiff (xs : List ℚ) : List (Option ℚ) :=
  (List.range xs.length).map fun t =>
    if t = 0 then none else some (xs.getD t 0 - xs.getD (t - 1) 0)

/-- `delta.where(delta > 0, 0)` applied entrywise: keep positive deltas,
replace everything else (including the leading NaN, whose comparison is
False) by 0. -/
def wherePos : Option ℚ → ℚ
  | some x => if x > 0 then x else 0
  | none => 0

/-- `-delta.where(delta < 0, 0)` applied entrywise: magnitude of negative
deltas, 0 elsewhere (the leading NaN compares False and becomes 0). -/
def whereNegAbs : Option ℚ → ℚ
  | some x => if x < 0 then -x else 0
  | none => 0

/-- Entrywise series division with NaN propagation; a zero denominator is a
float division artifact (±inf/NaN) and is surfaced as undefined. -/
def pdiv : Option ℚ → Option ℚ → Option ℚ
  | some a, some b => if b = 0 then none else some (a / b)
  | _, _ => none

/-- `calculate_technical_indicators(df)`: assigns the MA20/MA60/RSI and
Bollinger-midline columns exactly as the source does.  The Bollinger
standard-deviation band columns (`BB_Std`, `BB_Upper`, `BB_Lower`) involve a
real square root, are consumed by no other modelled function and no claim,
and are left out of the state model. -/
def calculate_technical_indicators (df : DF) : DF :=
  let ma20 := rollingMean 20 df.Close
  let ma60 := rollingMean 60 df.Close
  let delta := seriesDiff df.Close
  let gain := rollingMean 14 (delta.map wherePos)
  let loss := rollingMean 14 (delta.map whereNegAbs)
  let rs := List.zipWith pdiv gain loss
  let rsi := rs.map (Option.map fun r => 100 - 100 / (1 + r))
  let bb_mid := rollingMean 20 df.Close
  { df with MA20 := some ma20, MA60 := some ma60, RSI := some rsi,
            BB_Mid := some bb_mid }

/-- State-passing model of the in-place column assignments in
`calculate_technical_indicators`: the pair is (returned frame, state of the
argument object after the call).  The source assigns columns on `df` itself
and then executes `return df`, so both components are the same frame. -/
def calculate_technical_indicators_state (df : DF) : DF × DF :=
  let r := calculate_technical_indicators df
  (r, r)

/-- Momentum block of `calculate_ace_score`: score delta and appended
reason for `change_pct`. -/
def momentum_adj (change_pct : ℚ) : ℤ × List String :=
  if 3 < change_pct ∧ change_pct < 7 then (8, ["動能強勁"])
  else if change_pct ≥ 7 then (5, ["強勢漲停"])
  else if change_pct < -4 then (-8, ["賣壓沉重"])
  else (0, [])

/-- Volume block of `calculate_ace_score`. -/
def volume_adj (vol avg_vol_5 : ℚ) : ℤ × List String :=
  if vol > avg_vol_5 * (15/10) then (5, ["爆量攻擊"])
  else if vol < avg_vol_5 * (5/10) then (-2, ["量能急凍"])
  else (0, [])

/-- Trend block of `calculate_ace_score`: guarded by `not np.isnan(ma20)`;
the nested MA60 comparison fires only on a defined MA60. -/
def trend_adj (curr : ℚ) (ma20 ma60 : Option ℚ) : ℤ × List String :=
  match ma20 with
  | some m =>
    if curr > m then
      let t : ℤ × List String := (10, ["站穩月線"])
      match ma60 with
      | some m60 => if m > m60 then (t.1 + 10, t.2 ++ ["多頭排列"]) else t
      | none => t
    else (-10, ["跌破月線"])
  | none => (0, [])

/-- Bias block of `calculate_ace_score`: a NaN bias compares False against
15 and fires nothing. -/
def bias_adj (bias : Option ℚ) : ℤ × List String :=
  match bias with
  | some b => if b > 15 then (-5, ["短線過熱"]) else (0, [])
  | none => (0, [])

/-- Fundamentals block of `calculate_ace_score`:
`pe = info.get('trailingPE', 0)` followed by `if pe and 0 < pe < 15`
(the truthiness test makes `pe = 0` skip). -/
def pe_adj (pe : ℚ) : ℤ × List String :=
  if pe ≠ 0 ∧ 0 < pe ∧ pe < 15 then (5, ["低本益比"]) else (0, [])

/-- The per-call body of the scoring accumulation, given the values read
from the frame: starts at 50 and applies the four technical blocks in
source order, concatenating their reason labels; also yields the bias. -/
def ace_core (curr prev vol avg_vol_5 : ℚ) (ma20 ma60 : Option ℚ) :
    ℤ × List String × Option ℚ :=
  let change_pct := (curr - prev) / prev * 100
  let m := momentum_adj change_pct
  let v := volume_adj vol avg_vol_5
  let t := trend_adj curr ma20 ma60
  let bias := ma20.map fun mm => (curr - mm) / mm * 100
  let b := bias_adj bias
  (50 + m.1 + v.1 + t.1 + b.1, m.2 ++ v.2 ++ t.2 ++ b.2, bias)

/-- Everything `calculate_ace_score` computes before the fundamentals
block: reads the last two closes, the last MA20/MA60 cells, the last volume
and the 5-bar mean volume (any failing read is an uncaught exception, hence
`none`) and hands them to `ace_core`.  The score starts at 50 and every
adjustment is an integer, so the running score stays an integer
(`int(score)` in the source is the identity). -/
def ace_pre (df : DF) : Option (ℤ × List String × Option ℚ) :=
  match df.Close.getLast?, df.Close.dropLast.getLast?, df.MA20, df.MA60,
        df.Volume.getLast? with
  | some curr, some prev, some ma20col, some ma60col, some vol =>
    match ma20col.getLast?, ma60col.getLast? with
    | some ma20, some ma60 =>
      some (ace_core curr prev vol
        (listMean (df.Volume.drop (df.Volume.length - 5))) ma20 ma60)
    | _, _ => none
  | _, _, _, _, _ => none

/-- The four-branch action mapping at the end of `calculate_ace_score`. -/
def score_action (final_score : ℤ) : String :=
  if final_score ≥ 80 then "強力買進"
  else if final_score ≥ 65 then "偏多操作"
  else if final_score ≥ 45 then "區間觀望"
  else "保守避險"

/-- `calculate_ace_score(df, info)`: technical adjustments, fundamentals
adjustment, clamp `min(100, max(0, int(score)))`, action lookup. -/
def calculate_ace_score (df : DF) (info : Info) : Option ScoreResult :=
  (ace_pre df).map fun srb =>
    let pe := info.trailingPE.getD 0
    let p := pe_adj pe
    let final_score := min 100 (max 0 (srb.1 + p.1))
    { score := final_score
      action := score_action final_score
      reasons := srb.2.1 ++ p.2
      bias := srb.2.2 }

/-- Python truthiness chain `roe and roe > 15` in `calculate_strategy`:
`None` and `0` are falsy and short-circuit; any other number is compared
against 15. -/
def py_roe_gt15 (roe : Option ℚ) : Bool :=
  match roe with
  | none => false
  | some r => decide (r ≠ 0) && decide (r > 15)

/-- `calculate_strategy(price, score, roe)`.  `tick` is computed but never
used in the source; `roe and roe > 15` is Python truthiness: `None` and `0`
short-circuit to the 0.85 branch. -/
def calculate_strategy (price : ℚ) (score : ℤ) (roe : Option ℚ) : Strategy :=
  let tick : ℚ :=
    if price < 50 then 5/100 else if price < 100 then 1/10
    else if price < 500 then 5/10 else 1
  let mom_entry := price * (if score > 70 then 98/100 else 95/100)
  let mom_stop := mom_entry * (93/100)
  let mom_profit := mom_entry * (115/100)
  let val_entry := price * (if py_roe_gt15 roe then 9/10 else 85/100)
  let val_stop := val_entry * (85/100)
  let val_profit := val_entry * (13/10)
  { mom := ⟨mom_entry, mom_stop, mom_profit⟩
    val := ⟨val_entry, val_stop, val_profit⟩ }

/-- One token of the K-line narrative built by `get_kline_narrative`.  The
formatted date prefix and the `%.1f` float rendering are presentational and
are not part of the structured content modelled here. -/
structure KlineEntry where
  close : ℚ
  change_pct : ℚ
  tag : String
deriving DecidableEq

/-- `get_kline_narrative(df)`: iterates the rows of `df.tail(5)` in index
order (oldest of the window first); per row the per-bar change is
`(close - open) / open * 100` and the tag is `"紅K"` when that change is
positive, else `"黑K"`.  The source joins the formatted tokens with
`" -> "`; the structured token list is modelled. -/
def get_kline_narrative (df : DF) : List KlineEntry :=
  (List.zip (df.Open.drop (df.Open.length - 5))
            (df.Close.drop (df.Close.length - 5))).map fun oc =>
    let change := (oc.2 - oc.1) / oc.1 * 100
    ⟨oc.2, change, if change > 0 then "紅K" else "黑K"⟩

/-- Python `int(...)` on a float/rational value: truncation toward zero
(`Rat.floor` and its mirror are the computable Batteries operations). -/
def pytrunc (q : ℚ) : ℤ := if 0 ≤ q then q.floor else -(Rat.floor (-q))

/-- Outcome of the per-symbol boundary work in `fetch_stock_data_full`
(`yf.Ticker`, `.history`, `.info`): either some step raised — everything is
inside one `try` — or a closing-price history and an optional `longName`
came back. -/
inductive FetchResult where
  | throws : FetchResult
  | ok : List ℚ → Option String → FetchResult
deriving DecidableEq

/-- One value of the mapping built by `fetch_stock_data_full`. -/
structure Entry where
  id : String
  name : String
  price : ℚ
  change_pct : ℚ
  score : ℤ
deriving DecidableEq

/-- The body of the scanner loop for one symbol.  A raised exception is
swallowed by the bare `except: continue`, yielding `none`; so are the
IndexError on a one-bar history (`iloc[-2]`) and the OverflowError /
ValueError from `int(...)` applied to the ±inf/NaN produced when the
previous close is 0.  An empty history is skipped by the
`if not hist.empty` test. -/
def scan_one (fetch : String → FetchResult) (code : String) : Option Entry :=
  match fetch code with
  | FetchResult.throws => none
  | FetchResult.ok hist longName =>
    match hist.getLast?, hist.dropLast.getLast? with
    | some close, some prev =>
      if prev = 0 then none
      else
        let change := (close - prev) / prev * 100
        some { id := code, name := longName.getD code, price := close,
               change_pct := change,
               score := min 99 (max 1 (pytrunc (50 + change * 2))) }
    | _, _ => none

/-- `fetch_stock_data_full(symbol_list)`: folds the scanner loop over the
symbol list, building the `data_map` dictionary (modelled as an association
list in insertion order); skipped symbols contribute no key at all. -/
def fetch_stock_data_full (fetch : String → FetchResult) :
    List String → List (String × Entry)
  | [] => []
  | code :: rest =>
    match scan_one fetch code with
    | some e => (code, e) :: fetch_stock_data_full fetch rest
    | none => fetch_stock_data_full fetch rest

/-- The five-tier action table exactly as the specification words it
(thresholds 80/65/45/25, label text instantiated with the code's four
labels plus an arbitrary text for the lowest tier).  This definition
follows the spec, to be compared against `score_action` from the source. -/
def spec_action_table (caution : String) (s : ℤ) : String :=
  if s ≥ 80 then "強力買進"
  else if s ≥ 65 then "偏多操作"
  else if s ≥ 45 then "區間觀望"
  else if s ≥ 25 then "保守避險"
  else caution

/-- Two-bar indicator frame with a +4% close move, flat volume and
(as for any series shorter than 20 bars) all-NaN MA columns. -/
def dfW : DF :=
  { Open := [100, 100], High := [100, 104], Low := [99, 100],
    Close := [100, 104], Volume := [1000, 1000],
    MA20 := some [none, none], MA60 := some [none, none],
    RSI := some [none, none], BB_Mid := some [none, none] }

/-- One-bar indicator frame: `iloc[-2]` on it raises IndexError. -/
def df1bar : DF :=
  { Open := [100], High := [100], Low := [100],
    Close := [100], Volume := [1000],
    MA20 := some [none], MA60 := some [none],
    RSI := some [none], BB_Mid := some [none] }

/-- A raw one-bar OHLCV frame, before any indicator assignment. -/
def df0 : DF :=
  { Open := [1], High := [1], Low := [1], Close := [1], Volume := [1] }

/-- Five-bar frame whose fourth bar is a near-doji (body 0.1 on a range of
20, body fraction 0.005) and whose fifth bar has a dominant body (body 9 on
a range of 20, body fraction 0.45); both close above their open. -/
def df7 : DF :=
  { Open := [100, 100, 100, 100, 100],
    High := [110, 110, 110, 110, 110],
    Low := [90, 90, 90, 90, 90],
    Close := [100, 104, 96, 100 + 1/10, 109],
    Volume := [1000, 1000, 1000, 1000, 1000] }

/-- Concrete boundary behaviour for the scanner claims: one good symbol,
one empty-history symbol, one symbol whose fetch raises. -/
def fetchW : String → FetchResult := fun code =>
  if code = "2330" then FetchResult.ok [100, 104] (some "TSMC")
  else if code = "0050" then FetchResult.ok [] none
  else FetchResult.throws


/-- Sixty-bar frame of constant unit prices, long enough for every rolling
window. -/
def dfC6 : DF :=
  { Open := List.replicate 60 1, High := List.replicate 60 1,
    Low := List.replicate 60 1, Close := List.replicate 60 1,
    Volume := List.replicate 60 1 }

/-- Flat two-bar frame (no adjustment fires on the technical side). -/
def dfFlat : DF :=
  { Open := [100, 100], High := [101, 101], Low := [99, 99],
    Close := [100, 100], Volume := [1000, 1000],
    MA20 := some [none, none], MA60 := some [none, none],
    RSI := some [none, none], BB_Mid := some [none, none] }

lemma momentum_adj_range (c : ℚ) :
    -8 ≤ (momentum_adj c).1 ∧ (momentum_adj c).1 ≤ 8 := by
  unfold momentum_adj
  split_ifs <;> norm_num

lemma volume_adj_range (vol avg : ℚ) :
    -2 ≤ (volume_adj vol avg).1 ∧ (volume_adj vol avg).1 ≤ 5 := by
  unfold volume_adj
  split_ifs <;> norm_num

lemma trend_adj_range (curr : ℚ) (ma20 ma60 : Option ℚ) :
    -10 ≤ (trend_adj curr ma20 ma60).1 ∧ (trend_adj curr ma20 ma60).1 ≤ 20 := by
  rcases ma20 with - | m <;> rcases ma60 with - | m60 <;>
      simp only [trend_adj] <;>
    first
    | (split_ifs <;> norm_num)
    | norm_num

lemma bias_adj_range (b : Option ℚ) :
    -5 ≤ (bias_adj b).1 ∧ (bias_adj b).1 ≤ 0 := by
  rcases b with - | x <;> simp only [bias_adj] <;>
    first
    | (split_ifs <;> norm_num)
    | norm_num

lemma pe_adj_range (pe : ℚ) :
    0 ≤ (pe_adj pe).1 ∧ (pe_adj pe).1 ≤ 5 := by
  unfold pe_adj
  split_ifs <;> norm_num

/-- The technical part of the score always lands in `[25, 83]`:
`50 - 8 - 2 - 10 - 5` below, `50 + 8 + 5 + 20 + 0` above. -/
lemma ace_core_range (curr prev vol avg : ℚ) (ma20 ma60 : Option ℚ) :
    25 ≤ (ace_core curr prev vol avg ma20 ma60).1 ∧
      (ace_core curr prev vol avg ma20 ma60).1 ≤ 83 := by
  have h1 := momentum_adj_range ((curr - prev) / prev * 100)
  have h2 := volume_adj_range vol avg
  have h3 := trend_adj_range curr ma20 ma60
  have h4 := bias_adj_range (ma20.map fun mm => (curr - mm) / mm * 100)
  unfold ace_core
  dsimp only
  omega

lemma ace_pre_range (df : DF) (s : ℤ) (rs : List String) (b : Option ℚ)
    (h : ace_pre df = some (s, rs, b)) : 25 ≤ s ∧ s ≤ 83 := by
  unfold ace_pre at h
  split at h
  · split at h
    · have hx := congrArg Prod.fst (Option.some.inj h)
      dsimp only at hx
      rw [← hx]
      exact ace_core_range _ _ _ _ _ _
    · exact Option.noConfusion h
  · exact Option.noConfusion h

/-- Structure of every successful `calculate_ace_score` result: the score
sits in `[25, 88]` (so the clamp is the identity) and the action is the
source's four-branch lookup applied to the final score. -/
lemma calculate_ace_score_spec (df : DF) (info : Info) (r : ScoreResult)
    (h : calculate_ace_score df info = some r) :
    25 ≤ r.score ∧ r.score ≤ 88 ∧ r.action = score_action r.score := by
  unfold calculate_ace_score at h
  cases hpre : ace_pre df with
  | none => rw [hpre] at h; exact absurd h (by simp)
  | some srb =>
    obtain ⟨s, rs, b⟩ := srb
    rw [hpre] at h
    simp only [Option.map_some', Option.some.injEq] at h
    obtain ⟨hs_range1, hs_range2⟩ := ace_pre_range df s rs b hpre
    have hpe := pe_adj_range (info.trailingPE.getD 0)
    have hfinal :
        min 100 (max 0 (s + (pe_adj (info.trailingPE.getD 0)).1)) =
          s + (pe_adj (info.trailingPE.getD 0)).1 := by
      rw [max_eq_right (by omega), min_eq_right (by omega)]
    rw [← h]
    refine ⟨?_, ?_, ?_⟩
    · simp only [hfinal]; omega
    · simp only [hfinal]; omega
    · rfl

/-- Concrete evaluation of the scoring engine on `dfW` (+4% move, flat
volume, NaN moving averages, empty fundamentals): only the momentum
adjustment fires. -/
lemma ace_eval_dfW :
    calculate_ace_score dfW {} = some ⟨58, "區間觀望", ["動能強勁"], none⟩ := by
  simp [calculate_ace_score, ace_pre, ace_core, momentum_adj, volume_adj,
        trend_adj, bias_adj, pe_adj, listMean, score_action, dfW]
  norm_num

/-- C1: for every IndicatorFrame with at least 2 bars and every
fundamentals record, the score field of any result `calculate_ace_score`
returns is an integer (the field has type `ℤ`; the running Python score is
an int, so `int(score)` is the identity) lying in `[0, 100]`, whatever
combination of adjustments fires.  (In fact it lies in `[25, 88]`, so the
clamp never truncates.) -/
theorem ace_score_bounded (df : DF) (info : Info) (r : ScoreResult)
    (hbars : 2 ≤ df.Close.length)
    (h : calculate_ace_score df info = some r) :
    0 ≤ r.score ∧ r.score ≤ 100 := by
  obtain ⟨h1, h2, -⟩ := calculate_ace_score_spec df info r h
  omega

theorem ace_score_bounded_witness :
    2 ≤ dfW.Close.length ∧
      (0 ≤ (ScoreResult.mk 58 "區間觀望" ["動能強勁"] none).score ∧
        (ScoreResult.mk 58 "區間觀望" ["動能強勁"] none).score ≤ 100) :=
  ⟨by norm_num [dfW], ace_score_bounded dfW {} _ (by norm_num [dfW]) ace_eval_dfW⟩

/-- C2 counterexample: on a frame with fewer than 2 bars
`calculate_ace_score` produces no result at all — `df['Close'].iloc[-2]`
raises IndexError (modelled `none`) — instead of the neutral
score-50 / "insufficient-data" / empty-reasons result the claim asserts. -/
theorem ace_one_bar_counterexample :
    df1bar.Close.length < 2 ∧ calculate_ace_score df1bar {} = none := by
  constructor
  · norm_num [df1bar]
  · simp [calculate_ace_score, ace_pre, df1bar]

/-- C2 amended: on an IndicatorFrame with fewer than 2 bars
`calculate_ace_score` raises (uncaught IndexError from `iloc[-2]`,
modelled as `none`) for every fundamentals record; no neutral fallback
result exists in the code. -/
theorem ace_short_frame_raises (df : DF) (info : Info)
    (h : df.Close.length < 2) : calculate_ace_score df info = none := by
  unfold calculate_ace_score ace_pre
  rcases hc : df.Close with - | ⟨a, t⟩
  · simp [hc]
  · rcases t with - | ⟨b, t2⟩
    · simp [hc]
    · rw [hc] at h
      simp only [List.length_cons] at h
      exact absurd h (by omega)

theorem ace_short_frame_raises_witness :
    df1bar.Close.length < 2 ∧
      calculate_ace_score df1bar ⟨some 10, some (1/5), some "X"⟩ = none :=
  ⟨by norm_num [df1bar], ace_short_frame_raises df1bar _ (by norm_num [df1bar])⟩

/-- C3 counterexample: fundamentals with ROE 0.2 ( > 0.15 ) and trailing
P/E 18 ( ∈ (0, 20) ).  The claim predicts +8 with "high-quality-roe" and +7
with "attractive-valuation", i.e. score 65 and two reason labels, on this
otherwise signal-free frame.  The code returns score 50 with an empty
reasons list: its only fundamentals rule is `0 < pe < 15 → +5, "低本益比"`
(18 fails it) and no return-on-equity rule exists anywhere in the
function. -/
theorem fundamentals_counterexample :
    (Info.mk (some 18) (some (1/5)) none).returnOnEquity = some (1/5) ∧
    (3/20 : ℚ) < 1/5 ∧ (0 : ℚ) < 18 ∧ (18 : ℚ) < 20 ∧
    calculate_ace_score dfFlat (Info.mk (some 18) (some (1/5)) none) =
      some ⟨50, "區間觀望", [], none⟩ := by
  refine ⟨rfl, by norm_num, by norm_num, by norm_num, ?_⟩
  simp [calculate_ace_score, ace_pre, ace_core, momentum_adj, volume_adj,
        trend_adj, bias_adj, pe_adj, listMean, score_action, dfFlat]
  norm_num

/-- C3 amended: the fundamentals step of `calculate_ace_score` consists of
exactly one optional adjustment — a trailing P/E that is truthy and lies in
`(0, 15)` adds +5 with reason `"低本益比"`; a P/E outside that rule (absent,
zero, or out of range) changes nothing; and the return-on-equity field is
never consulted at all.  An absent field never errors. -/
theorem fundamentals_amended :
    (∀ (df : DF) (pe roe roe2 : Option ℚ) (nm : Option String),
        calculate_ace_score df ⟨pe, roe, nm⟩ =
          calculate_ace_score df ⟨pe, roe2, nm⟩) ∧
    (∀ (df : DF) (info : Info) (r : ScoreResult), info.trailingPE = none →
        calculate_ace_score df info = some r →
        ∀ pe : ℚ, 0 < pe → pe < 15 →
          calculate_ace_score df { info with trailingPE := some pe } =
            some ⟨r.score + 5, score_action (r.score + 5),
                  r.reasons ++ ["低本益比"], r.bias⟩) ∧
    (∀ (df : DF) (info : Info) (pe : ℚ), ¬ (pe ≠ 0 ∧ 0 < pe ∧ pe < 15) →
        calculate_ace_score df { info with trailingPE := some pe } =
          calculate_ace_score df { info with trailingPE := none }) := by
  refine ⟨fun df pe roe roe2 nm => rfl, ?_, ?_⟩
  · intro df info r hTP h pe h0 h15
    unfold calculate_ace_score at h ⊢
    cases hpre : ace_pre df with
    | none => rw [hpre] at h; exact absurd h (by simp)
    | some srb =>
      obtain ⟨s, rs, b⟩ := srb
      rw [hpre] at h
      simp only [Option.map_some', Option.some.injEq] at h ⊢
      rw [hTP] at h
      have hpe0 : pe_adj ((none : Option ℚ).getD 0) = (0, []) := by
        norm_num [pe_adj]
      have hpe5 : pe_adj ((some pe).getD 0) = (5, ["低本益比"]) := by
        rw [Option.getD_some]
        unfold pe_adj
        rw [if_pos ⟨ne_of_gt h0, h0, h15⟩]
      obtain ⟨hlo, hhi⟩ := ace_pre_range df s rs b hpre
      rw [hpe0] at h
      rw [hpe5]
      have hid : min 100 (max 0 (s + (0, ([] : List String)).1)) = s := by
        dsimp only
        rw [add_zero, max_eq_right (by omega), min_eq_right (by omega)]
      have hid5 : min 100 (max 0 (s + (5, ["低本益比"]).1)) = s + 5 := by
        dsimp only
        rw [max_eq_right (by omega), min_eq_right (by omega)]
      rw [hid] at h
      rw [hid5]
      rw [← h]
      simp
  · intro df info pe hneg
    unfold calculate_ace_score
    have e1 : pe_adj ((some pe).getD 0) = (0, []) := by
      rw [Option.getD_some]
      unfold pe_adj
      rw [if_neg hneg]
    have e2 : pe_adj ((none : Option ℚ).getD 0) = (0, []) := by
      norm_num [pe_adj]
    simp only [e1, e2]

theorem fundamentals_amended_witness :
    calculate_ace_score dfW ⟨some 10, none, none⟩ =
      some ⟨(58 : ℤ) + 5, score_action (58 + 5), ["動能強勁"] ++ ["低本益比"],
            none⟩ :=
  fundamentals_amended.2.1 dfW {} ⟨58, "區間觀望", ["動能強勁"], none⟩ rfl
    ace_eval_dfW 10 (by norm_num) (by norm_num)

/-- C4: every action label `calculate_ace_score` returns agrees with the
specification's five-tier threshold table (≥80, ≥65, ≥45, ≥25, lower) for
every choice of text for the lowest tier, because the achievable final
scores all lie in `[25, 88]`: the code's four-branch lookup (whose last
branch covers everything below 45) coincides with the five-tier table on
every reachable score, with "strong-buy" = 強力買進, "moderately-bullish" =
偏多操作, "neutral-watch" = 區間觀望, "defensive" = 保守避險, and the
"caution" tier unreachable. -/
theorem action_five_tier (caution : String) (df : DF) (info : Info)
    (r : ScoreResult) (h : calculate_ace_score df info = some r) :
    r.action = spec_action_table caution r.score := by
  obtain ⟨h1, -, h3⟩ := calculate_ace_score_spec df info r h
  rw [h3]
  unfold score_action spec_action_table
  split_ifs <;> first | rfl | (exfalso; omega)

theorem action_five_tier_witness :
    (ScoreResult.mk 58 "區間觀望" ["動能強勁"] none).action =
      spec_action_table "caution"
        (ScoreResult.mk 58 "區間觀望" ["動能強勁"] none).score :=
  action_five_tier "caution" dfW {} _ ace_eval_dfW

/-- C5: for every positive last price, every score and every optional ROE,
both triples produced by `calculate_strategy` follow the stated formulas
(momentum entry = price × 0.98 if score > 70 else 0.95, stop = entry ×
0.93, profit = entry × 1.15; value entry = price × 0.90 if ROE is truthy
and > 15 else 0.85, stop = entry × 0.85, profit = entry × 1.30) and satisfy
stop < entry < profit. -/
theorem strategy_levels_ordered (price : ℚ) (score : ℤ) (roe : Option ℚ)
    (hp : 0 < price) :
    (calculate_strategy price score roe).mom.entry =
        price * (if score > 70 then 98/100 else 95/100) ∧
    (calculate_strategy price score roe).mom.stop =
        (calculate_strategy price score roe).mom.entry * (93/100) ∧
    (calculate_strategy price score roe).mom.profit =
        (calculate_strategy price score roe).mom.entry * (115/100) ∧
    (calculate_strategy price score roe).val.entry =
        price * (if py_roe_gt15 roe then 9/10 else 85/100) ∧
    (calculate_strategy price score roe).val.stop =
        (calculate_strategy price score roe).val.entry * (85/100) ∧
    (calculate_strategy price score roe).val.profit =
        (calculate_strategy price score roe).val.entry * (13/10) ∧
    (calculate_strategy price score roe).mom.stop <
        (calculate_strategy price score roe).mom.entry ∧
    (calculate_strategy price score roe).mom.entry <
        (calculate_strategy price score roe).mom.profit ∧
    (calculate_strategy price score roe).val.stop <
        (calculate_strategy price score roe).val.entry ∧
    (calculate_strategy price score roe).val.entry <
        (calculate_strategy price score roe).val.profit := by
  have hme : 0 < (calculate_strategy price score roe).mom.entry := by
    unfold calculate_strategy
    dsimp only
    split_ifs <;> nlinarith
  have hve : 0 < (calculate_strategy price score roe).val.entry := by
    unfold calculate_strategy
    dsimp only
    split_ifs <;> nlinarith
  have e1 : (calculate_strategy price score roe).mom.stop =
      (calculate_strategy price score roe).mom.entry * (93/100) := rfl
  have e2 : (calculate_strategy price score roe).mom.profit =
      (calculate_strategy price score roe).mom.entry * (115/100) := rfl
  have e3 : (calculate_strategy price score roe).val.stop =
      (calculate_strategy price score roe).val.entry * (85/100) := rfl
  have e4 : (calculate_strategy price score roe).val.profit =
      (calculate_strategy price score roe).val.entry * (13/10) := rfl
  refine ⟨rfl, e1, e2, rfl, e3, e4, ?_, ?_, ?_, ?_⟩
  · rw [e1]; nlinarith
  · rw [e2]; nlinarith
  · rw [e3]; nlinarith
  · rw [e4]; nlinarith

theorem strategy_levels_ordered_witness :
    (calculate_strategy 100 75 (some 20)).mom.stop <
        (calculate_strategy 100 75 (some 20)).mom.entry ∧
      (calculate_strategy 100 75 (some 20)).val.stop <
        (calculate_strategy 100 75 (some 20)).val.entry :=
  ⟨(strategy_levels_ordered 100 75 (some 20) (by norm_num)).2.2.2.2.2.2.1,
   (strategy_levels_ordered 100 75 (some 20)
      (by norm_num)).2.2.2.2.2.2.2.2.1⟩

/-- C10: a missing (`None`) or zero ROE is falsy in `roe and roe > 15`, so
`calculate_strategy` silently takes the deeper-discount branch — value
entry 0.85 × price — exactly as any ROE ≤ 15 does, and returns without
error (the function is total). -/
theorem strategy_missing_roe (price : ℚ) (score : ℤ) (hp : 0 < price) :
    (calculate_strategy price score none).val.entry = price * (85/100) ∧
    (calculate_strategy price score (some 0)).val.entry = price * (85/100) ∧
    ∀ r : ℚ, r ≤ 15 →
      (calculate_strategy price score (some r)).val.entry =
        price * (85/100) := by
  refine ⟨rfl, ?_, ?_⟩
  · have h0 : py_roe_gt15 (some 0) = false := by
      simp [py_roe_gt15]
    simp [calculate_strategy, h0]
  · intro r hr
    have hfalse : py_roe_gt15 (some r) = false := by
      have : ¬ (15 : ℚ) < r := not_lt.mpr hr
      simp [py_roe_gt15, this]
    simp [calculate_strategy, hfalse]

theorem strategy_missing_roe_witness :
    (calculate_strategy 100 50 none).val.entry = 100 * (85/100) :=
  (strategy_missing_roe 100 50 (by norm_num)).1

/-- C9 counterexample: `calculate_technical_indicators` is not free of side
effects on its argument — on a raw one-bar frame the argument object's
state after the call differs from its state before (the column assignments
`df['MA20'] = ...` happen on the input object itself, which is then
returned). -/
theorem indicators_mutate_counterexample :
    (calculate_technical_indicators_state df0).2 ≠ df0 := by
  intro h
  have hcol := congrArg DF.MA20 h
  simp [calculate_technical_indicators_state, calculate_technical_indicators,
        df0] at hcol

/-- C9 amended: `calculate_technical_indicators` is deterministic and
returns the very object it was given (the returned frame and the
argument's post-state coincide), augmenting it in place; the original
OHLCV columns themselves are never modified. -/
theorem indicators_in_place_amended (df : DF) :
    (calculate_technical_indicators_state df).1 =
      (calculate_technical_indicators_state df).2 ∧
    (calculate_technical_indicators_state df).2.Open = df.Open ∧
    (calculate_technical_indicators_state df).2.High = df.High ∧
    (calculate_technical_indicators_state df).2.Low = df.Low ∧
    (calculate_technical_indicators_state df).2.Close = df.Close ∧
    (calculate_technical_indicators_state df).2.Volume = df.Volume :=
  ⟨rfl, rfl, rfl, rfl, rfl, rfl⟩

/-- The Batteries floor on `ℚ` agrees with the Mathlib floor. -/
lemma ratFloor_intFloor (q : ℚ) : q.floor = ⌊q⌋ := by
  rw [Rat.floor_def, Rat.floor_def']

lemma pytrunc_eq (q : ℚ) : pytrunc q = if 0 ≤ q then ⌊q⌋ else ⌈q⌉ := by
  unfold pytrunc
  simp only [ratFloor_intFloor, Int.floor_neg, neg_neg]

/-- Truncating toward zero and clamping to the integer bounds 1 and 99
commute, so the code's `min(99, max(1, int(score)))` equals the
specification's `int(clamp(score, 1, 99))`. -/
lemma pytrunc_clamp (q : ℚ) :
    min 99 (max 1 (pytrunc q)) = pytrunc (min 99 (max 1 q)) := by
  rw [pytrunc_eq, pytrunc_eq]
  have hq1 : (1:ℚ) ≤ min 99 (max 1 q) := le_min (by norm_num) (le_max_left 1 q)
  rw [if_pos (by linarith : (0:ℚ) ≤ min 99 (max 1 q))]
  have h99Q : ((99:ℤ) : ℚ) = (99:ℚ) := by norm_num
  rcases le_or_lt 0 q with h0 | h0
  · rw [if_pos h0]
    rcases le_or_lt 99 q with h99 | h99
    · rw [max_eq_right (by linarith : (1:ℚ) ≤ q), min_eq_left h99]
      have hf : (99:ℤ) ≤ ⌊q⌋ := Int.le_floor.mpr (by rw [h99Q]; exact h99)
      rw [max_eq_right (by omega : (1:ℤ) ≤ ⌊q⌋), min_eq_left hf, ← h99Q,
          Int.floor_intCast]
    · rcases le_or_lt 1 q with h1 | h1
      · rw [max_eq_right h1, min_eq_right (le_of_lt h99)]
        have hf1 : (1:ℤ) ≤ ⌊q⌋ := Int.le_floor.mpr (by exact_mod_cast h1)
        have hf99 : ⌊q⌋ < 99 := by
          have h := Int.floor_le q
          have : (⌊q⌋ : ℚ) < 99 := lt_of_le_of_lt h h99
          exact_mod_cast this
        rw [max_eq_right hf1, min_eq_right (by omega)]
      · have hf0 : ⌊q⌋ = 0 :=
          Int.floor_eq_zero_iff.mpr (Set.mem_Ico.mpr ⟨h0, h1⟩)
        have hm1 : (1:ℤ) ⊔ 0 = 1 := by norm_num [max_def]
        have hm2 : (99:ℤ) ⊓ 1 = 1 := by norm_num [min_def]
        have hm3 : (1:ℚ) ⊔ q = 1 := max_eq_left (le_of_lt h1)
        have hm4 : (99:ℚ) ⊓ 1 = 1 := by norm_num [min_def]
        rw [hf0, hm1, hm2, hm3, hm4, Int.floor_one]
  · rw [if_neg (not_le.mpr h0)]
    have hc : ⌈q⌉ ≤ 0 := Int.ceil_le.mpr (by exact_mod_cast le_of_lt h0)
    have hm1 : (1:ℤ) ⊔ ⌈q⌉ = 1 := max_eq_left (by omega)
    have hm2 : (99:ℤ) ⊓ 1 = 1 := by norm_num [min_def]
    have hm3 : (1:ℚ) ⊔ q = 1 := max_eq_left (by linarith)
    have hm4 : (99:ℚ) ⊓ 1 = 1 := by norm_num [min_def]
    rw [hm1, hm2, hm3, hm4, Int.floor_one]

/-- A symbol whose fetch raises, or whose history is empty, is skipped. -/
lemma scan_one_none_of_fail (fetch : String → FetchResult) (code : String)
    (hfail : fetch code = FetchResult.throws ∨
      ∃ nm, fetch code = FetchResult.ok [] nm) :
    scan_one fetch code = none := by
  unfold scan_one
  rcases hfail with hf | ⟨nm, hf⟩ <;> rw [hf] <;> simp

/-- Membership in the scanner output comes from a successful per-symbol
scan of that very symbol. -/
lemma fetch_full_mem (fetch : String → FetchResult) (symbols : List String)
    (code : String) (e : Entry)
    (h : (code, e) ∈ fetch_stock_data_full fetch symbols) :
    scan_one fetch code = some e := by
  induction symbols with
  | nil => simp [fetch_stock_data_full] at h
  | cons c rest ih =>
    unfold fetch_stock_data_full at h
    cases hsc : scan_one fetch c with
    | none => rw [hsc] at h; exact ih h
    | some e2 =>
      rw [hsc] at h
      rcases List.mem_cons.mp h with heq | hmem
      · rw [Prod.mk.injEq] at heq
        obtain ⟨rfl, rfl⟩ := heq
        exact hsc
      · exact ih hmem

/-- Successful per-symbol scans are exactly the histories with a nonzero
second-to-last close; the stored fields follow the loop body. -/
lemma scan_one_some_spec (fetch : String → FetchResult) (code : String)
    (e : Entry) (h : scan_one fetch code = some e) :
    ∃ hist nm close prev, fetch code = FetchResult.ok hist nm ∧
      hist.getLast? = some close ∧ hist.dropLast.getLast? = some prev ∧
      prev ≠ 0 ∧
      e.change_pct = (close - prev) / prev * 100 ∧
      e.price = close ∧
      e.score = min 99 (max 1 (pytrunc (50 + e.change_pct * 2))) := by
  unfold scan_one at h
  cases hf : fetch code with
  | throws => rw [hf] at h; exact absurd h (by simp)
  | ok hist nm =>
    rw [hf] at h
    dsimp only at h
    rcases hcl : hist.getLast? with - | close
    · rw [hcl] at h; exact absurd h (by simp)
    · rcases hpv : hist.dropLast.getLast? with - | prev
      · rw [hcl, hpv] at h; exact absurd h (by simp)
      · rw [hcl, hpv] at h
        dsimp only at h
        by_cases hp0 : prev = 0
        · rw [if_pos hp0] at h; exact absurd h (by simp)
        · rw [if_neg hp0] at h
          have he := Option.some.inj h
          subst he
          exact ⟨hist, nm, close, prev, rfl, hcl, hpv, hp0, rfl, rfl, rfl⟩

/-- Unfolding equation for the scanner cons case. -/
lemma fetch_full_cons (fetch : String → FetchResult) (c : String)
    (rest : List String) :
    fetch_stock_data_full fetch (c :: rest) =
      match scan_one fetch c with
      | some e => (c, e) :: fetch_stock_data_full fetch rest
      | none => fetch_stock_data_full fetch rest := rfl

/-- Dropping a symbol whose fetch raises leaves the scan of every other
symbol unchanged. -/
lemma fetch_full_skip (fetch : String → FetchResult) (bad : String)
    (hbad : fetch bad = FetchResult.throws) (xs ys : List String) :
    fetch_stock_data_full fetch (xs ++ bad :: ys) =
      fetch_stock_data_full fetch (xs ++ ys) := by
  have hb : scan_one fetch bad = none := by unfold scan_one; rw [hbad]
  induction xs with
  | nil =>
    simp only [List.nil_append]
    rw [fetch_full_cons, hb]
  | cons c rest ih =>
    simp only [List.cons_append]
    rw [fetch_full_cons, fetch_full_cons, ih]

/-- C8: for every fetch behaviour and symbol list, (a) a symbol whose fetch
raises or returns an empty history contributes no key to the scanner's
mapping; (b) every symbol that is present carries
`fastScore = int(clamp(50 + 2·changePct, 1, 99))` computed from the last
two closes of its fetched history; (c) removing a symbol whose fetch
raises changes nothing else — per-symbol failure never aborts the scan of
the remaining symbols. -/
theorem batch_scanner_spec (fetch : String → FetchResult)
    (symbols : List String) :
    (∀ code : String,
        (fetch code = FetchResult.throws ∨
          ∃ nm, fetch code = FetchResult.ok [] nm) →
        code ∉ (fetch_stock_data_full fetch symbols).map Prod.fst) ∧
    (∀ (code : String) (e : Entry),
        (code, e) ∈ fetch_stock_data_full fetch symbols →
        ∃ hist nm close prev, fetch code = FetchResult.ok hist nm ∧
          hist.getLast? = some close ∧ hist.dropLast.getLast? = some prev ∧
          prev ≠ 0 ∧
          e.change_pct = (close - prev) / prev * 100 ∧
          e.score = pytrunc (min 99 (max 1 (50 + 2 * e.change_pct)))) ∧
    (∀ (xs ys : List String) (bad : String),
        fetch bad = FetchResult.throws →
        fetch_stock_data_full fetch (xs ++ bad :: ys) =
          fetch_stock_data_full fetch (xs ++ ys)) := by
  refine ⟨?_, ?_, ?_⟩
  · intro code hfail hmem
    obtain ⟨p, hp, hfst⟩ := List.mem_map.mp hmem
    obtain ⟨c, e⟩ := p
    cases hfst
    have := fetch_full_mem fetch symbols c e hp
    rw [scan_one_none_of_fail fetch c hfail] at this
    exact Option.noConfusion this
  · intro code e hmem
    obtain ⟨hist, nm, close, prev, hf, hcl, hpv, hp0, hch, -, hsc⟩ :=
      scan_one_some_spec fetch code e (fetch_full_mem fetch symbols code e hmem)
    refine ⟨hist, nm, close, prev, hf, hcl, hpv, hp0, hch, ?_⟩
    rw [hsc, pytrunc_clamp]
    ring_nf
  · intro xs ys bad hbad
    exact fetch_full_skip fetch bad hbad xs ys

/-- Concrete scan: `2330` succeeds (+4%, fastScore 58), `0050` has an empty
history and `9999` raises; both are absent from the mapping. -/
lemma fetch_full_eval :
    fetch_stock_data_full fetchW ["2330", "0050", "9999"] =
      [("2330", ⟨"2330", "TSMC", 104, 4, 58⟩)] := by
  simp [fetch_stock_data_full, scan_one, fetchW, pytrunc, Rat.floor]
  norm_num

theorem batch_scanner_spec_witness :
    "0050" ∉ (fetch_stock_data_full fetchW ["2330", "0050", "9999"]).map
        Prod.fst ∧
    (∃ hist nm close prev, fetchW "2330" = FetchResult.ok hist nm ∧
        hist.getLast? = some close ∧ hist.dropLast.getLast? = some prev ∧
        prev ≠ 0 ∧
        (Entry.mk "2330" "TSMC" 104 4 58).change_pct =
          (close - prev) / prev * 100 ∧
        (Entry.mk "2330" "TSMC" 104 4 58).score =
          pytrunc (min 99 (max 1
            (50 + 2 * (Entry.mk "2330" "TSMC" 104 4 58).change_pct)))) ∧
    fetch_stock_data_full fetchW (["2330"] ++ "9999" :: ["0050"]) =
      fetch_stock_data_full fetchW (["2330"] ++ ["0050"]) :=
  ⟨(batch_scanner_spec fetchW ["2330", "0050", "9999"]).1 "0050"
      (Or.inr ⟨none, rfl⟩),
   (batch_scanner_spec fetchW ["2330", "0050", "9999"]).2.1 "2330"
      (Entry.mk "2330" "TSMC" 104 4 58)
      (by rw [fetch_full_eval]; exact List.mem_singleton.mpr rfl),
   (batch_scanner_spec fetchW ["2330", "0050", "9999"]).2.2 ["2330"] ["0050"]
      "9999" rfl⟩

lemma rollingMean_length (w : ℕ) (xs : List ℚ) :
    (rollingMean w xs).length = xs.length := by
  simp [rollingMean]

lemma rollingMean_getD (w : ℕ) (xs : List ℚ) (t : ℕ) (ht : t < xs.length) :
    (rollingMean w xs).getD t none =
      if t + 1 < w then none
      else some (((xs.take (t + 1)).drop (t + 1 - w)).sum / (w : ℚ)) := by
  unfold rollingMean
  rw [List.getD_eq_getElem?_getD, List.getElem?_map, List.getElem?_range ht]
  rfl

/-- C6: on every price series of length ≥ 60 with strictly positive closes,
the MA20 column produced by `calculate_technical_indicators` is, at every
position `t ≥ 19`, the arithmetic mean of the trailing inclusive window
`close[t-19..t]` (a window of exactly 20 bars), and is undefined (NaN,
modelled `none`) at every position `t < 19`. -/
theorem ma20_trailing_mean (df : DF) (hlen : 60 ≤ df.Close.length)
    (hpos : ∀ c ∈ df.Close, 0 < c) :
    ∃ col, (calculate_technical_indicators df).MA20 = some col ∧
      col.length = df.Close.length ∧
      (∀ t, t < df.Close.length → 19 ≤ t →
        ((df.Close.drop (t - 19)).take 20).length = 20 ∧
        col.getD t none =
          some (((df.Close.drop (t - 19)).take 20).sum / 20)) ∧
      (∀ t, t < 19 → col.getD t none = none) := by
  refine ⟨rollingMean 20 df.Close, rfl, rollingMean_length 20 df.Close,
    ?_, ?_⟩
  · intro t ht ht19
    constructor
    · rw [List.length_take, List.length_drop]
      omega
    · rw [rollingMean_getD 20 df.Close t ht, if_neg (by omega)]
      have h1 : t + 1 - 20 = t - 19 := by omega
      have h2 : t + 1 - (t - 19) = 20 := by omega
      rw [h1, List.drop_take, h2]
      norm_num
  · intro t ht
    have htlen : t < df.Close.length := by omega
    rw [rollingMean_getD 20 df.Close t htlen, if_pos (by omega)]

theorem ma20_trailing_mean_witness :
    60 ≤ dfC6.Close.length ∧
      (∃ col, (calculate_technical_indicators dfC6).MA20 = some col ∧
        col.length = dfC6.Close.length ∧
        (∀ t, t < dfC6.Close.length → 19 ≤ t →
          ((dfC6.Close.drop (t - 19)).take 20).length = 20 ∧
          col.getD t none =
            some (((dfC6.Close.drop (t - 19)).take 20).sum / 20)) ∧
        (∀ t, t < 19 → col.getD t none = none)) :=
  ⟨by norm_num [dfC6],
   ma20_trailing_mean dfC6 (by norm_num [dfC6])
     (by
       intro c hc
       simp only [dfC6] at hc
       rw [List.eq_of_mem_replicate hc]
       norm_num)⟩

/-- For a positive open, the per-bar change `(close-open)/open*100` is
positive exactly when the close exceeds the open. -/
lemma change_pos_iff (o c : ℚ) (ho : 0 < o) :
    ((c - o) / o * 100 > 0) ↔ o < c := by
  have key : (c - o) / o * 100 = (c - o) * (100 / o) := by ring
  have hpos : (0:ℚ) < 100 / o := by positivity
  rw [gt_iff_lt, key, mul_pos_iff_of_pos_right hpos, sub_pos]

/-- C7 counterexample: the fourth bar of `df7` has body fraction
`0.1 / 20 = 0.005 < 0.15` — a doji by the claim — while the fifth has body
fraction `9 / 20 = 0.45 ≥ 0.15` and closes above its open.  The claim
requires the tags "doji" and "bullish", which are distinct; the code tags
both bars `"紅K"`: it computes no body fraction, never reads high/low, and
has no doji category (first bar, a perfectly flat candle — body fraction
0 — likewise gets the plain bearish tag `"黑K"`, the same tag as the truly
bearish third bar). -/
theorem narrative_no_doji_counterexample :
    |(100 + 1/10 : ℚ) - 100| / (110 - 90) < 15/100 ∧
    (15/100 : ℚ) ≤ |(109 : ℚ) - 100| / (110 - 90) ∧
    (get_kline_narrative df7).map KlineEntry.tag =
      ["黑K", "紅K", "黑K", "紅K", "紅K"] := by
  refine ⟨?_, ?_, ?_⟩
  · rw [show (100 + 1/10 : ℚ) - 100 = 1/10 by ring,
        abs_of_pos (by norm_num : (0:ℚ) < 1/10)]
    norm_num
  · rw [show (109 : ℚ) - 100 = 9 by ring,
        abs_of_pos (by norm_num : (0:ℚ) < 9)]
    norm_num
  · norm_num [get_kline_narrative, df7]

/-- C7 amended: per bar the tag is `"紅K"` exactly when close > open (the
code checks `(close-open)/open*100 > 0`; an equal or lower close,
doji-shaped or not, gets `"黑K"`); high/low and body fraction are never
consulted, and the output covers the most recent 5 bars (or fewer when
unavailable), oldest first. -/
theorem narrative_amended (df : DF)
    (hlen : df.Open.length = df.Close.length)
    (hpos : ∀ o ∈ df.Open, 0 < o) :
    (get_kline_narrative df).length = min 5 df.Close.length ∧
    ∀ (i : ℕ) (hi : i < (get_kline_narrative df).length),
      ((get_kline_narrative df).get ⟨i, hi⟩).close =
        df.Close.getD (df.Close.length - 5 + i) 0 ∧
      ((get_kline_narrative df).get ⟨i, hi⟩).tag =
        (if df.Open.getD (df.Open.length - 5 + i) 0 <
            df.Close.getD (df.Close.length - 5 + i) 0
         then "紅K" else "黑K") := by
  have hL : (get_kline_narrative df).length = min 5 df.Close.length := by
    simp [get_kline_narrative, hlen]
    omega
  refine ⟨hL, ?_⟩
  intro i hi
  have hi5 : i < min 5 df.Close.length := by rw [← hL]; exact hi
  have hiC : df.Close.length - 5 + i < df.Close.length := by omega
  have hiO : df.Open.length - 5 + i < df.Open.length := by rw [hlen]; omega
  have key : (get_kline_narrative df).get ⟨i, hi⟩ =
      { close := df.Close.get ⟨df.Close.length - 5 + i, hiC⟩,
        change_pct :=
          (df.Close.get ⟨df.Close.length - 5 + i, hiC⟩ -
              df.Open.get ⟨df.Open.length - 5 + i, hiO⟩) /
            df.Open.get ⟨df.Open.length - 5 + i, hiO⟩ * 100,
        tag :=
          if (df.Close.get ⟨df.Close.length - 5 + i, hiC⟩ -
                df.Open.get ⟨df.Open.length - 5 + i, hiO⟩) /
              df.Open.get ⟨df.Open.length - 5 + i, hiO⟩ * 100 > 0
          then "紅K" else "黑K" } := by
    unfold get_kline_narrative
    simp [List.get_eq_getElem, List.getElem_map, List.getElem_zip,
          List.getElem_drop]
  have ho : 0 < df.Open.get ⟨df.Open.length - 5 + i, hiO⟩ :=
    hpos _ (df.Open.get_mem _ _)
  constructor
  · rw [key, List.getD_eq_get df.Close 0 hiC]
  · rw [key, List.getD_eq_get df.Close 0 hiC,
        List.getD_eq_get df.Open 0 hiO]
    exact if_congr (change_pos_iff _ _ ho) rfl rfl

theorem narrative_amended_witness :
    (get_kline_narrative df7).length = min 5 df7.Close.length ∧
    ∀ (i : ℕ) (hi : i < (get_kline_narrative df7).length),
      ((get_kline_narrative df7).get ⟨i, hi⟩).close =
        df7.Close.getD (df7.Close.length - 5 + i) 0 ∧
      ((get_kline_narrative df7).get ⟨i, hi⟩).tag =
        (if df7.Open.getD (df7.Open.length - 5 + i) 0 <
            df7.Close.getD (df7.Close.length - 5 + i) 0
         then "紅K" else "黑K") :=
  narrative_amended df7 (by norm_num [df7])
    (by
      intro o ho
      simp [df7] at ho
      rw [ho]
      norm_num)
